import Mathlib

/-!
Verification of the core logic of mcp-bearer-token/mcp_starter.py: the cosine
similarity helper, the best-match scan over the in-memory profile store, and
the ingestion flow of the mero_ai tool.

The numeric code is embedded over the real numbers.  The dynamically typed
parts of the ingestion flow (dictionary lookups that can raise KeyError,
arithmetic and string joins that can raise TypeError) are embedded with an
explicit value type and the Except monad, so that unhandled Python exceptions
appear as Except.error values.
-/

namespace MeroAI

/-- Line 21 of the source: sum of pairwise products over zip.  Python zip
truncates to the shorter of the two lists, and so does List.zip. -/
def dot_product (vec1 vec2 : List ℝ) : ℝ :=
  ((vec1.zip vec2).map fun pq => pq.1 * pq.2).sum

/-- Lines 22 and 23 of the source: Euclidean magnitude of a vector. -/
noncomputable def magnitude (v : List ℝ) : ℝ :=
  Real.sqrt ((v.map fun p => p * p).sum)

/-- Lines 19 to 26 of the source: cosine similarity with the zero-magnitude
guard.  The Python test `not magnitude1` on a nonnegative float is the test
`magnitude1 == 0.0`. -/
noncomputable def custom_cosine_similarity (vec1 vec2 : List ℝ) : ℝ :=
  if magnitude vec1 = 0 ∨ magnitude vec2 = 0 then 0
  else dot_product vec1 vec2 / (magnitude vec1 * magnitude vec2)

/-- A stored profile as the matcher sees it: id, five-ish personality numbers,
interest strings. -/
structure Profile where
  id : ℕ
  personality_vector : List ℝ
  interests : List String

/-- Similarity of a candidate profile to the target vector, as computed at
line 85 of the source. -/
noncomputable def score (target : List ℝ) (p : Profile) : ℝ :=
  custom_cosine_similarity target p.personality_vector

/-- Loop body of lines 85 to 88 of the source: strict greater-than update of
the running best match. -/
noncomputable def stepBest (target : List ℝ) (acc : Option Profile × ℝ)
    (other_profile : Profile) : Option Profile × ℝ :=
  let similarity := score target other_profile
  if acc.2 < similarity then (some other_profile, similarity) else acc

/-- Lines 79 to 88 of the source: scan all candidates, starting from the
sentinel pair (no match, -1). -/
noncomputable def findBestMatch (target : List ℝ) (candidates : List Profile) :
    Option Profile × ℝ :=
  candidates.foldl (stepBest target) (none, -1)

/- Dynamic layer: the mero_ai tool works on the loosely typed result of the
external analyzer.  Values are numbers or strings; dictionary lookups of
absent keys raise KeyError; arithmetic or joins on wrongly typed values raise
TypeError.  Unhandled exceptions are Except.error values. -/

/-- A dynamically typed value occurring inside an analyzer result. -/
inductive Val where
  | num (x : ℝ)
  | str (s : String)

/-- The Python exceptions the ingestion path can raise. -/
inductive PyErr where
  | keyError
  | typeError

/-- True when the value is a number. -/
def isNum : Val → Bool
  | .num _ => true
  | .str _ => false

/-- True when the value is a string. -/
def isStr : Val → Bool
  | .str _ => true
  | .num _ => false

/-- All values in the list are numbers. -/
def allNum (l : List Val) : Bool := l.all isNum

/-- All values in the list are strings. -/
def allStr (l : List Val) : Bool := l.all isStr

/-- Dictionary lookup: a missing key raises KeyError. -/
def expectKey {α : Type} : Option α → Except PyErr α
  | some v => .ok v
  | none => .error .keyError

/-- Python multiplication of two dynamic values: TypeError unless both are
numbers. -/
def valMul : Val → Val → Except PyErr ℝ
  | .num a, .num b => .ok (a * b)
  | _, _ => .error .typeError

/-- Python sum of a generator of pairwise products: the first wrongly typed
pair raises TypeError. -/
def sumProds : List (Val × Val) → Except PyErr ℝ
  | [] => .ok 0
  | pq :: rest =>
    (valMul pq.1 pq.2).bind fun x =>
    (sumProds rest).bind fun s =>
    .ok (x + s)

/-- Lines 19 to 26 of the source on dynamic values: the same computation as
custom_cosine_similarity, but any non-numeric entry raises TypeError. -/
noncomputable def custom_cosine_similarityDyn (vec1 vec2 : List Val) :
    Except PyErr ℝ :=
  (sumProds (vec1.zip vec2)).bind fun dp =>
  (sumProds (vec1.zip vec1)).bind fun sq1 =>
  (sumProds (vec2.zip vec2)).bind fun sq2 =>
  if Real.sqrt sq1 = 0 ∨ Real.sqrt sq2 = 0 then .ok 0
  else .ok (dp / (Real.sqrt sq1 * Real.sqrt sq2))

/-- Collect the strings of a list of dynamic values, left to right; the first
non-string raises TypeError (as str.join does). -/
def strList : List Val → Except PyErr (List String)
  | [] => .ok []
  | .str s :: rest => (strList rest).bind fun ss => .ok (s :: ss)
  | .num _ :: _ => .error .typeError

/-- Line 91 of the source: join the interests with a comma separator. -/
def joinStrs (l : List Val) : Except PyErr String :=
  (strList l).bind fun parts => .ok (String.intercalate ", " parts)

/-- The analyzer result as a Python dictionary: either key may be absent and
either value may be arbitrarily typed. -/
structure RawProfile where
  personality_vector : Option (List Val)
  interests : Option (List Val)

/-- A profile as stored in user_profiles_memory: the raw fields plus the id
assigned at lines 73 to 75 of the source. -/
structure StoredProfile where
  id : ℕ
  fields : RawProfile

/-- The two module-level globals of the source (lines 15 and 16). -/
structure ServerState where
  user_profiles_memory : List StoredProfile
  USER_ID_COUNTER : ℕ

/-- Python round with one argument: round half to even. -/
noncomputable def pyRound (x : ℝ) : ℤ :=
  if Int.fract x = 1 / 2 then 2 * round (x / 2) else round x

/-- Line 70 of the source: the fixed apology when analysis fails. -/
def apology_message : String :=
  "Sorry, I couldn't analyze the text. Please try again with a bit more detail!"

/-- Lines 93 to 108 of the source: assemble the reply string from the joined
interests and the outcome of the match scan. -/
noncomputable def response_message (interests_output : String)
    (best_match : Option StoredProfile) (highest_similarity : ℝ) : String :=
  let base := "💘 **Based on our conversation, here's what I'm sensing:**\n\n" ++
    "It seems you enjoy talking about topics like **" ++ interests_output ++
    "**. The way you express yourself suggests a personality that is thoughtful and unique.\n\n"
  let withMatch :=
    match best_match with
    | some bm =>
      base ++ "**Connection Found!** 🚀\nI've found another user (ID #" ++
        toString bm.id ++ ") with a **" ++
        toString (pyRound (highest_similarity * 100)) ++
        "%** similar personality profile. You might find you have a lot in common!\n\n"
    | none =>
      base ++ "You're one of the first to use Mero AI! As more people join, I'll be able to find great matches for you.\n\n"
  withMatch ++ "Share Mero AI with friends! #BuildWithPuch"

/-- Lines 79 to 88 of the source as executed: iterate over the whole store,
skip the profile whose id is the freshly assigned one, look up both
personality vectors (KeyError if absent), compute the similarity (TypeError on
non-numeric entries) and keep the strictly greater score. -/
noncomputable def matchLoop (profile : RawProfile) (new_user_id : ℕ) :
    List StoredProfile → Option StoredProfile × ℝ →
      Except PyErr (Option StoredProfile × ℝ)
  | [], acc => .ok acc
  | other_profile :: rest, acc =>
    if other_profile.id ≠ new_user_id then
      (expectKey profile.personality_vector).bind fun tv =>
      (expectKey other_profile.fields.personality_vector).bind fun ov =>
      (custom_cosine_similarityDyn tv ov).bind fun similarity =>
      if acc.2 < similarity then
        matchLoop profile new_user_id rest (some other_profile, similarity)
      else matchLoop profile new_user_id rest acc
    else matchLoop profile new_user_id rest acc

/-- Lines 62 to 110 of the source: the mero_ai tool after the analyzer call.
The analyzer result is passed in (None models a failed analysis).  The state
mutation of lines 73 to 76 happens before any later exception, exactly as in
Python, so the returned state is the mutated one even when the first component
is an error. -/
noncomputable def mero_ai (analysis : Option RawProfile) (st : ServerState) :
    Except PyErr String × ServerState :=
  match analysis with
  | none => (.ok apology_message, st)
  | some profile =>
    let new_user_id := st.USER_ID_COUNTER + 1
    let st' : ServerState :=
      ⟨st.user_profiles_memory ++ [⟨new_user_id, profile⟩], new_user_id⟩
    let result : Except PyErr String :=
      (if 1 < st'.user_profiles_memory.length then
          matchLoop profile new_user_id st'.user_profiles_memory (none, -1)
        else .ok (none, -1)).bind fun bm =>
      (expectKey profile.interests).bind fun il =>
      (joinStrs il).bind fun interests_output =>
      .ok (response_message interests_output bm.1 bm.2)
    (result, st')

/-- A sequence of calls to the mero_ai tool within one process lifetime,
starting from a given state. -/
noncomputable def runIngestions (inputs : List (Option RawProfile))
    (st : ServerState) : ServerState :=
  inputs.foldl (fun s a => (mero_ai a s).2) st

/-- Number of inputs on which the analyzer succeeded. -/
def countSuccess (inputs : List (Option RawProfile)) : ℕ :=
  inputs.countP fun a => a.isSome

/- Helper lemmas about dot_product. -/

lemma dot_product_nil_left (v : List ℝ) : dot_product [] v = 0 := by
  simp [dot_product]

lemma dot_product_nil_right (v : List ℝ) : dot_product v [] = 0 := by
  simp [dot_product]

lemma dot_product_cons (x y : ℝ) (xs ys : List ℝ) :
    dot_product (x :: xs) (y :: ys) = x * y + dot_product xs ys := by
  simp [dot_product]

lemma dot_product_comm (a b : List ℝ) : dot_product a b = dot_product b a := by
  induction a generalizing b with
  | nil => cases b <;> simp [dot_product]
  | cons x xs ih =>
    cases b with
    | nil => simp [dot_product]
    | cons y ys => rw [dot_product_cons, dot_product_cons, mul_comm, ih]

lemma dot_product_append_right (vec1 vec2 extra : List ℝ)
    (h : vec1.length = vec2.length) :
    dot_product vec1 (vec2 ++ extra) = dot_product vec1 vec2 := by
  induction vec1 generalizing vec2 with
  | nil => simp [dot_product]
  | cons x xs ih =>
    cases vec2 with
    | nil => simp at h
    | cons y ys =>
      rw [List.cons_append, dot_product_cons, dot_product_cons,
        ih ys (by simpa using h)]

/- Concrete magnitude and similarity evaluations shared by several claims. -/

lemma mag_e5 : magnitude [(1 : ℝ), 0, 0, 0, 0] = 1 := by
  have h : (([(1 : ℝ), 0, 0, 0, 0]).map fun p => p * p).sum = 1 := by norm_num
  unfold magnitude
  rw [h, Real.sqrt_one]

lemma mag_ne5 : magnitude [(-1 : ℝ), 0, 0, 0, 0] = 1 := by
  have h : (([(-1 : ℝ), 0, 0, 0, 0]).map fun p => p * p).sum = 1 := by norm_num
  unfold magnitude
  rw [h, Real.sqrt_one]

lemma mag_e3 : magnitude [(1 : ℝ), 0, 0] = 1 := by
  have h : (([(1 : ℝ), 0, 0]).map fun p => p * p).sum = 1 := by norm_num
  unfold magnitude
  rw [h, Real.sqrt_one]

lemma mag_zero5 : magnitude [(0 : ℝ), 0, 0, 0, 0] = 0 := by
  have h : (([(0 : ℝ), 0, 0, 0, 0]).map fun p => p * p).sum = 0 := by norm_num
  unfold magnitude
  rw [h, Real.sqrt_zero]

lemma sim_self_e5 :
    custom_cosine_similarity [(1 : ℝ), 0, 0, 0, 0] [(1 : ℝ), 0, 0, 0, 0] = 1 := by
  have hd : dot_product [(1 : ℝ), 0, 0, 0, 0] [(1 : ℝ), 0, 0, 0, 0] = 1 := by
    norm_num [dot_product]
  unfold custom_cosine_similarity
  rw [mag_e5, hd]
  norm_num

lemma sim_opp_e5 :
    custom_cosine_similarity [(1 : ℝ), 0, 0, 0, 0] [(-1 : ℝ), 0, 0, 0, 0] = -1 := by
  have hd : dot_product [(1 : ℝ), 0, 0, 0, 0] [(-1 : ℝ), 0, 0, 0, 0] = -1 := by
    norm_num [dot_product]
  unfold custom_cosine_similarity
  rw [mag_e5, mag_ne5, hd]
  norm_num

/-- C1 counterexample: the source has no dimension guard.  On the 5-vector
[1,0,0,0,0] against the 3-vector [1,0,0] it silently truncates via zip and
returns the number 1 instead of failing with a DimensionMismatch error. -/
theorem claim_C1_counterexample :
    ([(1 : ℝ), 0, 0, 0, 0]).length ≠ ([(1 : ℝ), 0, 0]).length ∧
    custom_cosine_similarity [(1 : ℝ), 0, 0, 0, 0] [(1 : ℝ), 0, 0] = 1 := by
  constructor
  · simp
  · have hd : dot_product [(1 : ℝ), 0, 0, 0, 0] [(1 : ℝ), 0, 0] = 1 := by
      norm_num [dot_product]
    unfold custom_cosine_similarity
    rw [mag_e5, mag_e3, hd]
    norm_num

/-- C1 amended: custom_cosine_similarity never raises on unequal lengths.
Appending extra entries to the second vector leaves the dot product at the
truncation to the common length (zip truncates silently), while the magnitudes
still use the full vectors. -/
theorem claim_C1 (vec1 vec2 extra : List ℝ) (h : vec1.length = vec2.length) :
    custom_cosine_similarity vec1 (vec2 ++ extra) =
      if magnitude vec1 = 0 ∨ magnitude (vec2 ++ extra) = 0 then 0
      else dot_product vec1 vec2 / (magnitude vec1 * magnitude (vec2 ++ extra)) := by
  unfold custom_cosine_similarity
  rw [dot_product_append_right vec1 vec2 extra h]

/-- C1 witness: the amended statement at vec1 = vec2 = [1,0,0], extra = [5,5]. -/
theorem claim_C1_witness :
    ([(1 : ℝ), 0, 0]).length = ([(1 : ℝ), 0, 0]).length ∧
    custom_cosine_similarity [(1 : ℝ), 0, 0] ([(1 : ℝ), 0, 0] ++ [5, 5]) =
      if magnitude [(1 : ℝ), 0, 0] = 0 ∨ magnitude ([(1 : ℝ), 0, 0] ++ [5, 5]) = 0 then 0
      else dot_product [(1 : ℝ), 0, 0] [(1 : ℝ), 0, 0]
        / (magnitude [(1 : ℝ), 0, 0] * magnitude ([(1 : ℝ), 0, 0] ++ [5, 5])) :=
  ⟨rfl, claim_C1 _ _ _ rfl⟩

/-- C4: whenever either magnitude is exactly zero, the similarity is exactly 0
(the explicit guard at lines 24 and 25 of the source), with no division. -/
theorem claim_C4 (vec1 vec2 : List ℝ) (hlen : vec1.length = vec2.length)
    (h : magnitude vec1 = 0 ∨ magnitude vec2 = 0) :
    custom_cosine_similarity vec1 vec2 = 0 := by
  unfold custom_cosine_similarity
  rw [if_pos h]

/-- C4 witness: the all-zero 5-vector against [1,2,3,4,5] gives exactly 0. -/
theorem claim_C4_witness :
    ([(0 : ℝ), 0, 0, 0, 0]).length = ([(1 : ℝ), 2, 3, 4, 5]).length ∧
    magnitude [(0 : ℝ), 0, 0, 0, 0] = 0 ∧
    custom_cosine_similarity [(0 : ℝ), 0, 0, 0, 0] [(1 : ℝ), 2, 3, 4, 5] = 0 :=
  ⟨rfl, mag_zero5, claim_C4 _ _ rfl (Or.inl mag_zero5)⟩

/-- C9: cosine similarity as implemented is symmetric in its two arguments
(this even holds without the equal-length assumption). -/
theorem claim_C9 (a b : List ℝ) :
    custom_cosine_similarity a b = custom_cosine_similarity b a := by
  by_cases h : magnitude a = 0 ∨ magnitude b = 0
  · unfold custom_cosine_similarity
    rw [if_pos h, if_pos (Or.symm h)]
  · unfold custom_cosine_similarity
    rw [if_neg h, if_neg (fun hc => h (Or.symm hc)), dot_product_comm,
      mul_comm]

/-- C9 witness: symmetry at the concrete pair [1,2] and [3,4]. -/
theorem claim_C9_witness :
    custom_cosine_similarity [(1 : ℝ), 2] [(3 : ℝ), 4] =
      custom_cosine_similarity [(3 : ℝ), 4] [(1 : ℝ), 2] :=
  claim_C9 _ _

/-- C10: custom_cosine_similarity is total on all pairs of numeric lists: two
empty lists give 0, and in every case the result is either the guarded 0 or a
division whose denominator is provably nonzero. -/
theorem claim_C10 :
    custom_cosine_similarity [] [] = 0 ∧
    ∀ vec1 vec2 : List ℝ,
      custom_cosine_similarity vec1 vec2 = 0 ∨
      (magnitude vec1 * magnitude vec2 ≠ 0 ∧
        custom_cosine_similarity vec1 vec2 * (magnitude vec1 * magnitude vec2)
          = dot_product vec1 vec2) := by
  constructor
  · have h : magnitude ([] : List ℝ) = 0 := by
      unfold magnitude
      simp
    unfold custom_cosine_similarity
    rw [if_pos (Or.inl h)]
  · intro vec1 vec2
    by_cases h : magnitude vec1 = 0 ∨ magnitude vec2 = 0
    · left
      unfold custom_cosine_similarity
      rw [if_pos h]
    · right
      push_neg at h
      have hne : magnitude vec1 * magnitude vec2 ≠ 0 := mul_ne_zero h.1 h.2
      refine ⟨hne, ?_⟩
      unfold custom_cosine_similarity
      rw [if_neg (by push_neg; exact h), div_mul_cancel₀ _ hne]

/- Characterization of the best-match fold. -/

lemma foldl_stepBest_eq_some (target : List ℝ) :
    ∀ (l : List Profile) (acc : Option Profile × ℝ) (b : Profile) (s : ℝ),
      l.foldl (stepBest target) acc = (some b, s) →
      (acc = (some b, s) ∧ ∀ c ∈ l, score target c ≤ acc.2) ∨
      (∃ l1 l2, l = l1 ++ b :: l2 ∧ s = score target b ∧ acc.2 < s ∧
        (∀ a ∈ l1, score target a < s) ∧ (∀ a ∈ l2, score target a ≤ s)) := by
  intro l
  induction l with
  | nil =>
    intro acc b s h
    exact Or.inl ⟨h, by simp⟩
  | cons c t ih =>
    intro acc b s h
    rw [List.foldl_cons] at h
    by_cases hc : acc.2 < score target c
    · have hstep : stepBest target acc c = (some c, score target c) := by
        simp [stepBest, if_pos hc]
      rw [hstep] at h
      rcases ih _ _ _ h with ⟨heq, hall⟩ | ⟨t1, t2, ht, hs, hlt, hpre, hsuf⟩
      · obtain ⟨hb, hsc⟩ : c = b ∧ score target c = s := by
          constructor
          · exact Option.some.inj (congrArg Prod.fst heq)
          · exact congrArg Prod.snd heq
        subst hb
        refine Or.inr ⟨[], t, by simp, hsc.symm, by rw [hsc] at hc; exact hc, by simp, ?_⟩
        intro a ha
        have := hall a ha
        simpa [hsc] using this
      · refine Or.inr ⟨c :: t1, t2, by rw [ht]; rfl, hs, ?_, ?_, hsuf⟩
        · exact hc.trans hlt
        · intro a ha
          rcases List.mem_cons.mp ha with rfl | ha'
          · exact hlt
          · exact hpre a ha'
    · have hstep : stepBest target acc c = acc := by
        simp [stepBest, if_neg hc]
      rw [hstep] at h
      rcases ih _ _ _ h with ⟨heq, hall⟩ | ⟨t1, t2, ht, hs, hlt, hpre, hsuf⟩
      · refine Or.inl ⟨heq, ?_⟩
        intro x hx
        rcases List.mem_cons.mp hx with rfl | hx'
        · exact not_lt.mp hc
        · exact hall x hx'
      · refine Or.inr ⟨c :: t1, t2, by rw [ht]; rfl, hs, hlt, ?_, hsuf⟩
        intro a ha
        rcases List.mem_cons.mp ha with rfl | ha'
        · exact lt_of_le_of_lt (not_lt.mp hc) hlt
        · exact hpre a ha'

lemma foldl_stepBest_isSome (target : List ℝ) :
    ∀ (l : List Profile) (acc : Option Profile × ℝ),
      acc.1.isSome = true → ((l.foldl (stepBest target) acc).1).isSome = true := by
  intro l
  induction l with
  | nil => intro acc h; simpa using h
  | cons c t ih =>
    intro acc h
    rw [List.foldl_cons]
    apply ih
    by_cases hc : acc.2 < score target c
    · simp [stepBest, if_pos hc]
    · simpa [stepBest, if_neg hc] using h

lemma foldl_stepBest_some (target : List ℝ) :
    ∀ (l : List Profile) (acc : Option Profile × ℝ),
      (∃ c ∈ l, acc.2 < score target c) →
      ∃ b s, l.foldl (stepBest target) acc = (some b, s) := by
  intro l
  induction l with
  | nil =>
    rintro acc ⟨c, hc, _⟩
    exact absurd hc (List.not_mem_nil c)
  | cons c t ih =>
    rintro acc ⟨d, hd, hlt⟩
    rw [List.foldl_cons]
    by_cases hc : acc.2 < score target c
    · have h1 : (stepBest target acc c).1.isSome = true := by
        simp [stepBest, if_pos hc]
      have h2 := foldl_stepBest_isSome target t _ h1
      obtain ⟨b, hb⟩ := Option.isSome_iff_exists.mp h2
      refine ⟨b, (t.foldl (stepBest target) (stepBest target acc c)).2, ?_⟩
      rw [Prod.ext_iff]
      exact ⟨hb, rfl⟩
    · rcases List.mem_cons.mp hd with rfl | hd'
      · exact absurd hlt hc
      · have hstep : stepBest target acc c = acc := by
          simp [stepBest, if_neg hc]
        rw [hstep]
        exact ih acc ⟨d, hd', hlt⟩

/-- C2 counterexample: the sentinel in the source is -1, not a value below
-1.0.  A lone candidate whose similarity is exactly -1.0 fails the strict
greater-than test against the sentinel, so the scan of a non-empty candidate
list returns no match. -/
theorem claim_C2_counterexample :
    [(⟨1, [-1, 0, 0, 0, 0], []⟩ : Profile)] ≠ [] ∧
    score [(1 : ℝ), 0, 0, 0, 0] ⟨1, [-1, 0, 0, 0, 0], []⟩ = -1 ∧
    findBestMatch [(1 : ℝ), 0, 0, 0, 0] [⟨1, [-1, 0, 0, 0, 0], []⟩] = (none, -1) := by
  have hs : score [(1 : ℝ), 0, 0, 0, 0] ⟨1, [-1, 0, 0, 0, 0], []⟩ = -1 := by
    unfold score
    exact sim_opp_e5
  refine ⟨by simp, hs, ?_⟩
  unfold findBestMatch
  rw [List.foldl_cons, List.foldl_nil]
  unfold stepBest
  rw [hs]
  simp

/-- C2 amended: whenever some candidate scores strictly above the sentinel -1,
the scan returns a candidate achieving the maximum score over all candidates.
Candidates scoring exactly -1.0 or below can be skipped entirely, because the
sentinel of the source is -1 rather than a value below -1.0. -/
theorem claim_C2 (target : List ℝ) (candidates : List Profile)
    (h : ∃ c ∈ candidates, -1 < score target c) :
    ∃ b s, findBestMatch target candidates = (some b, s) ∧ b ∈ candidates ∧
      s = score target b ∧ ∀ c ∈ candidates, score target c ≤ s := by
  obtain ⟨b, s, heq⟩ := foldl_stepBest_some target candidates (none, -1) h
  have heq' : findBestMatch target candidates = (some b, s) := heq
  rcases foldl_stepBest_eq_some target candidates (none, -1) b s heq with
    ⟨habs, _⟩ | ⟨l1, l2, hd, hs, _, hpre, hsuf⟩
  · exact absurd (congrArg Prod.fst habs) (by simp)
  · refine ⟨b, s, heq', by rw [hd]; simp, hs, ?_⟩
    intro c hc
    rw [hd] at hc
    rcases List.mem_append.mp hc with h1 | h2
    · exact le_of_lt (hpre c h1)
    · rcases List.mem_cons.mp h2 with rfl | h3
      · exact le_of_eq hs.symm
      · exact hsuf c h3

/-- C2 witness: a single candidate identical to the target scores 1 above the
sentinel and is returned with the maximal score. -/
theorem claim_C2_witness :
    (∃ c ∈ [(⟨1, [1, 0, 0, 0, 0], []⟩ : Profile)],
      -1 < score [(1 : ℝ), 0, 0, 0, 0] c) ∧
    ∃ b s, findBestMatch [(1 : ℝ), 0, 0, 0, 0] [(⟨1, [1, 0, 0, 0, 0], []⟩ : Profile)]
        = (some b, s) ∧
      b ∈ [(⟨1, [1, 0, 0, 0, 0], []⟩ : Profile)] ∧
      s = score [(1 : ℝ), 0, 0, 0, 0] b ∧
      ∀ c ∈ [(⟨1, [1, 0, 0, 0, 0], []⟩ : Profile)],
        score [(1 : ℝ), 0, 0, 0, 0] c ≤ s := by
  have hp : -1 < score [(1 : ℝ), 0, 0, 0, 0] (⟨1, [1, 0, 0, 0, 0], []⟩ : Profile) := by
    unfold score
    rw [sim_self_e5]
    norm_num
  have hyp : ∃ c ∈ [(⟨1, [1, 0, 0, 0, 0], []⟩ : Profile)],
      -1 < score [(1 : ℝ), 0, 0, 0, 0] c := ⟨_, by simp, hp⟩
  exact ⟨hyp, claim_C2 _ _ hyp⟩

/-- C3: whenever the scan returns a profile, that profile attains the maximum
score over all candidates, and every candidate strictly before it in iteration
order scores strictly lower: among ties at the maximum, the first candidate in
arrival order wins, as forced by the strict greater-than comparison. -/
theorem claim_C3 (target : List ℝ) (candidates : List Profile) (b : Profile)
    (s : ℝ) (h : findBestMatch target candidates = (some b, s)) :
    s = score target b ∧ (∀ c ∈ candidates, score target c ≤ s) ∧
    ∃ l1 l2, candidates = l1 ++ b :: l2 ∧ ∀ a ∈ l1, score target a < s := by
  rcases foldl_stepBest_eq_some target candidates (none, -1) b s h with
    ⟨habs, _⟩ | ⟨l1, l2, hd, hs, _, hpre, hsuf⟩
  · exact absurd (congrArg Prod.fst habs) (by simp)
  · refine ⟨hs, ?_, l1, l2, hd, hpre⟩
    intro c hc
    rw [hd] at hc
    rcases List.mem_append.mp hc with h1 | h2
    · exact le_of_lt (hpre c h1)
    · rcases List.mem_cons.mp h2 with rfl | h3
      · exact le_of_eq hs.symm
      · exact hsuf c h3

/-- C3 witness: two candidates tied at score 1; the scan returns the first of
them, which attains the maximum and has no earlier candidate. -/
theorem claim_C3_witness :
    (1 : ℝ) = score [(1 : ℝ), 0, 0, 0, 0] (⟨1, [1, 0, 0, 0, 0], []⟩ : Profile) ∧
    (∀ c ∈ [(⟨1, [1, 0, 0, 0, 0], []⟩ : Profile), ⟨2, [1, 0, 0, 0, 0], []⟩],
      score [(1 : ℝ), 0, 0, 0, 0] c ≤ 1) ∧
    ∃ l1 l2,
      [(⟨1, [1, 0, 0, 0, 0], []⟩ : Profile), ⟨2, [1, 0, 0, 0, 0], []⟩]
        = l1 ++ (⟨1, [1, 0, 0, 0, 0], []⟩ : Profile) :: l2 ∧
      ∀ a ∈ l1, score [(1 : ℝ), 0, 0, 0, 0] a < 1 := by
  have hs1 : score [(1 : ℝ), 0, 0, 0, 0] (⟨1, [1, 0, 0, 0, 0], []⟩ : Profile) = 1 := by
    unfold score
    exact sim_self_e5
  have hs2 : score [(1 : ℝ), 0, 0, 0, 0] (⟨2, [1, 0, 0, 0, 0], []⟩ : Profile) = 1 := by
    unfold score
    exact sim_self_e5
  have heval : findBestMatch [(1 : ℝ), 0, 0, 0, 0]
      [(⟨1, [1, 0, 0, 0, 0], []⟩ : Profile), ⟨2, [1, 0, 0, 0, 0], []⟩]
      = (some (⟨1, [1, 0, 0, 0, 0], []⟩ : Profile), 1) := by
    unfold findBestMatch
    rw [List.foldl_cons, List.foldl_cons, List.foldl_nil]
    simp only [stepBest, hs1, hs2]
    norm_num
  exact claim_C3 _ _ _ _ heval

/- Success lemmas for the dynamic layer: on well-typed data the ingestion path
raises no exception. -/

lemma num_of_isNum (x : Val) (h : isNum x = true) : ∃ a, x = Val.num a := by
  cases x with
  | num a => exact ⟨a, rfl⟩
  | str s => simp [isNum] at h

lemma str_of_isStr (x : Val) (h : isStr x = true) : ∃ s, x = Val.str s := by
  cases x with
  | num a => simp [isStr] at h
  | str s => exact ⟨s, rfl⟩

lemma sumProds_ok :
    ∀ (v1 v2 : List Val), allNum v1 = true → allNum v2 = true →
      ∃ r, sumProds (v1.zip v2) = Except.ok r := by
  intro v1
  induction v1 with
  | nil =>
    intro v2 _ _
    exact ⟨0, rfl⟩
  | cons x xs ih =>
    intro v2 h1 h2
    cases v2 with
    | nil => exact ⟨0, rfl⟩
    | cons y ys =>
      simp only [allNum, List.all_cons, Bool.and_eq_true] at h1 h2
      obtain ⟨a, rfl⟩ := num_of_isNum x h1.1
      obtain ⟨b, rfl⟩ := num_of_isNum y h2.1
      obtain ⟨r, hr⟩ := ih ys h1.2 h2.2
      have hr2 : sumProds (List.zipWith Prod.mk xs ys) = Except.ok r := hr
      exact ⟨a * b + r, by simp [sumProds, valMul, Except.bind, hr2]⟩

lemma simDyn_ok (v1 v2 : List Val) (h1 : allNum v1 = true)
    (h2 : allNum v2 = true) :
    ∃ r, custom_cosine_similarityDyn v1 v2 = Except.ok r := by
  obtain ⟨dp, hdp⟩ := sumProds_ok v1 v2 h1 h2
  obtain ⟨s1, hs1⟩ := sumProds_ok v1 v1 h1 h1
  obtain ⟨s2, hs2⟩ := sumProds_ok v2 v2 h2 h2
  unfold custom_cosine_similarityDyn
  rw [hdp]
  simp only [Except.bind]
  rw [hs1]
  simp only [Except.bind]
  rw [hs2]
  simp only [Except.bind]
  by_cases hc : Real.sqrt s1 = 0 ∨ Real.sqrt s2 = 0
  · rw [if_pos hc]
    exact ⟨0, rfl⟩
  · rw [if_neg hc]
    exact ⟨_, rfl⟩

lemma strList_ok :
    ∀ l : List Val, allStr l = true → ∃ ss, strList l = Except.ok ss := by
  intro l
  induction l with
  | nil =>
    intro _
    exact ⟨[], rfl⟩
  | cons x xs ih =>
    intro h
    simp only [allStr, List.all_cons, Bool.and_eq_true] at h
    obtain ⟨s, rfl⟩ := str_of_isStr x h.1
    obtain ⟨ss, hss⟩ := ih h.2
    exact ⟨s :: ss, by simp [strList, Except.bind, hss]⟩

lemma matchLoop_ok (profile : RawProfile) (nid : ℕ) (tv : List Val)
    (htv : profile.personality_vector = some tv) (htn : allNum tv = true) :
    ∀ (others : List StoredProfile) (acc : Option StoredProfile × ℝ),
      (∀ p ∈ others, ∃ v, p.fields.personality_vector = some v ∧ allNum v = true) →
      ∃ r, matchLoop profile nid others acc = Except.ok r := by
  intro others
  induction others with
  | nil =>
    intro acc _
    exact ⟨acc, rfl⟩
  | cons other rest ih =>
    intro acc hmem
    have hrest : ∀ p ∈ rest,
        ∃ v, p.fields.personality_vector = some v ∧ allNum v = true :=
      fun p hp => hmem p (List.mem_cons_of_mem _ hp)
    obtain ⟨v, hv, hvn⟩ := hmem other (List.mem_cons_self _ _)
    by_cases hid : other.id ≠ nid
    · obtain ⟨r0, hr0⟩ := simDyn_ok tv v htn hvn
      simp only [matchLoop]
      rw [if_pos hid, htv, hv]
      simp only [expectKey, Except.bind]
      rw [hr0]
      simp only [Except.bind]
      by_cases hlt : acc.2 < r0
      · rw [if_pos hlt]
        exact ih _ hrest
      · rw [if_neg hlt]
        exact ih _ hrest
    · simp only [matchLoop]
      rw [if_neg hid]
      exact ih _ hrest

/-- C5 counterexample: an analyzer result with a numeric five-entry
personality_vector but no interests key makes the very first ingestion raise
an unhandled KeyError at the join of line 91, rather than completing. -/
theorem claim_C5_counterexample :
    (mero_ai
        (some ⟨some [Val.num 1, Val.num 0, Val.num 0, Val.num 0, Val.num 0], none⟩)
        ⟨[], 0⟩).1 = Except.error PyErr.keyError := rfl

/-- C5 amended: ingestion completes without an exception for analyzer results
that carry a personality_vector of numbers (any length, any values, including
out of range) and an interests list of strings, provided every stored profile
also carries a numeric personality_vector; results missing a key or with
wrongly typed entries raise KeyError or TypeError instead. -/
theorem claim_C5 (raw : RawProfile) (st : ServerState)
    (hv : ∃ nv, raw.personality_vector = some nv ∧ allNum nv = true)
    (hi : ∃ il, raw.interests = some il ∧ allStr il = true)
    (hmem : ∀ p ∈ st.user_profiles_memory,
      ∃ v, p.fields.personality_vector = some v ∧ allNum v = true) :
    ∃ msg, (mero_ai (some raw) st).1 = Except.ok msg := by
  obtain ⟨nv, hnv, hnum⟩ := hv
  obtain ⟨il, hil, hstr⟩ := hi
  have hmem' : ∀ p ∈ st.user_profiles_memory ++ [⟨st.USER_ID_COUNTER + 1, raw⟩],
      ∃ v, p.fields.personality_vector = some v ∧ allNum v = true := by
    intro p hp
    rcases List.mem_append.mp hp with h | h
    · exact hmem p h
    · obtain rfl := List.mem_singleton.mp h
      exact ⟨nv, hnv, hnum⟩
  obtain ⟨parts, hparts⟩ := strList_ok il hstr
  have hun : (mero_ai (some raw) st).1 =
      (if 1 < (st.user_profiles_memory
            ++ [(⟨st.USER_ID_COUNTER + 1, raw⟩ : StoredProfile)]).length then
          matchLoop raw (st.USER_ID_COUNTER + 1)
            (st.user_profiles_memory
              ++ [(⟨st.USER_ID_COUNTER + 1, raw⟩ : StoredProfile)]) (none, -1)
        else .ok (none, -1)).bind fun bm =>
      (expectKey raw.interests).bind fun il' =>
      (joinStrs il').bind fun interests_output =>
      .ok (response_message interests_output bm.1 bm.2) := rfl
  rw [hun]
  by_cases hlen :
      1 < (st.user_profiles_memory
        ++ [(⟨st.USER_ID_COUNTER + 1, raw⟩ : StoredProfile)]).length
  · rw [if_pos hlen]
    obtain ⟨r, hr⟩ :=
      matchLoop_ok raw (st.USER_ID_COUNTER + 1) nv hnv hnum _ (none, -1) hmem'
    rw [hr]
    simp only [Except.bind]
    rw [hil]
    simp only [expectKey, Except.bind, joinStrs]
    rw [hparts]
    simp only [Except.bind]
    exact ⟨_, rfl⟩
  · rw [if_neg hlen]
    simp only [Except.bind]
    rw [hil]
    simp only [expectKey, Except.bind, joinStrs]
    rw [hparts]
    simp only [Except.bind]
    exact ⟨_, rfl⟩

/-- C5 witness: a well-typed analyzer result ingested into a store holding one
well-typed profile completes with an ok message. -/
theorem claim_C5_witness :
    ∃ msg,
      (mero_ai
          (some ⟨some [Val.num 1, Val.num 0, Val.num 0, Val.num 0, Val.num 0],
            some [Val.str "hiking"]⟩)
          ⟨[⟨1, ⟨some [Val.num 0, Val.num 1, Val.num 0, Val.num 0, Val.num 0],
            some [Val.str "art"]⟩⟩], 1⟩).1 = Except.ok msg :=
  claim_C5 _ _ ⟨_, rfl, rfl⟩ ⟨_, rfl, rfl⟩ (by
    intro p hp
    obtain rfl := List.mem_singleton.mp hp
    exact ⟨_, rfl, rfl⟩)

/- State evolution lemmas for the ingestion flow. -/

lemma mero_ai_state_some (raw : RawProfile) (st : ServerState) :
    (mero_ai (some raw) st).2 =
      ⟨st.user_profiles_memory ++ [⟨st.USER_ID_COUNTER + 1, raw⟩],
        st.USER_ID_COUNTER + 1⟩ := rfl

lemma mero_ai_state_none (st : ServerState) : (mero_ai none st).2 = st := rfl

lemma runIngestions_inv :
    ∀ (inputs : List (Option RawProfile)) (st : ServerState),
      st.USER_ID_COUNTER = st.user_profiles_memory.length →
      st.user_profiles_memory.map StoredProfile.id
          = List.range' 1 st.user_profiles_memory.length →
      (runIngestions inputs st).USER_ID_COUNTER
          = (runIngestions inputs st).user_profiles_memory.length ∧
      (runIngestions inputs st).user_profiles_memory.length
          = st.user_profiles_memory.length + countSuccess inputs ∧
      (runIngestions inputs st).user_profiles_memory.map StoredProfile.id
          = List.range' 1 ((runIngestions inputs st).user_profiles_memory.length) := by
  intro inputs
  induction inputs with
  | nil =>
    intro st h1 h2
    refine ⟨?_, ?_, ?_⟩
    · simpa [runIngestions] using h1
    · simp [runIngestions, countSuccess]
    · simpa [runIngestions] using h2
  | cons a t ih =>
    intro st h1 h2
    have hstep : runIngestions (a :: t) st = runIngestions t ((mero_ai a st).2) := rfl
    cases a with
    | none =>
      rw [hstep, mero_ai_state_none]
      have h := ih st h1 h2
      refine ⟨h.1, ?_, h.2.2⟩
      have hcs : countSuccess (none :: t) = countSuccess t := by
        simp [countSuccess, List.countP_cons]
      rw [hcs]
      exact h.2.1
    | some raw =>
      rw [hstep, mero_ai_state_some]
      have h1' : (ServerState.mk
            (st.user_profiles_memory ++ [⟨st.USER_ID_COUNTER + 1, raw⟩])
            (st.USER_ID_COUNTER + 1)).USER_ID_COUNTER
          = (ServerState.mk
            (st.user_profiles_memory ++ [⟨st.USER_ID_COUNTER + 1, raw⟩])
            (st.USER_ID_COUNTER + 1)).user_profiles_memory.length := by
        simp [h1]
      have h2' : (ServerState.mk
            (st.user_profiles_memory ++ [⟨st.USER_ID_COUNTER + 1, raw⟩])
            (st.USER_ID_COUNTER + 1)).user_profiles_memory.map StoredProfile.id
          = List.range' 1 (ServerState.mk
            (st.user_profiles_memory ++ [⟨st.USER_ID_COUNTER + 1, raw⟩])
            (st.USER_ID_COUNTER + 1)).user_profiles_memory.length := by
         simp only [List.map_append, List.length_append]
         rw [h2]
         have hc : st.USER_ID_COUNTER + 1 = 1 + st.user_profiles_memory.length := by
           omega
         simp only [List.map_cons, List.map_nil, hc]
         rw [← List.range'_1_concat]
         simp
      have h := ih _ h1' h2'
      refine ⟨h.1, ?_, h.2.2⟩
      have hcs : countSuccess (some raw :: t) = countSuccess t + 1 := by
        simp [countSuccess, List.countP_cons]
      have hlen : (ServerState.mk
            (st.user_profiles_memory ++ [⟨st.USER_ID_COUNTER + 1, raw⟩])
            (st.USER_ID_COUNTER + 1)).user_profiles_memory.length
          = st.user_profiles_memory.length + 1 := by
        simp
      omega

/-- C6: starting from the fresh process state (empty store, counter 0), after
any sequence of tool calls the stored ids are exactly 1, 2, ..., n in arrival
order where n is the number of successful analyses; hence all ids are unique,
and each successful ingestion appends exactly one profile and bumps the
counter by exactly one. -/
theorem claim_C6 (inputs : List (Option RawProfile)) :
    (runIngestions inputs ⟨[], 0⟩).user_profiles_memory.map StoredProfile.id
        = List.range' 1 ((runIngestions inputs ⟨[], 0⟩).user_profiles_memory.length) ∧
    (runIngestions inputs ⟨[], 0⟩).user_profiles_memory.length = countSuccess inputs ∧
    (runIngestions inputs ⟨[], 0⟩).USER_ID_COUNTER = countSuccess inputs ∧
    ((runIngestions inputs ⟨[], 0⟩).user_profiles_memory.map StoredProfile.id).Nodup ∧
    ∀ (raw : RawProfile) (st : ServerState),
      (mero_ai (some raw) st).2.user_profiles_memory
          = st.user_profiles_memory ++ [⟨st.USER_ID_COUNTER + 1, raw⟩] ∧
      (mero_ai (some raw) st).2.USER_ID_COUNTER = st.USER_ID_COUNTER + 1 := by
  have h := runIngestions_inv inputs ⟨[], 0⟩ rfl rfl
  have hlen : (runIngestions inputs ⟨[], 0⟩).user_profiles_memory.length
      = countSuccess inputs := by
    have := h.2.1
    simpa using this
  refine ⟨h.2.2, hlen, ?_, ?_, ?_⟩
  · rw [h.1, hlen]
  · rw [h.2.2]
    exact List.nodup_range' _ _
  · intro raw st
    exact ⟨rfl, rfl⟩

/-- C6 witness: three calls, the second of which has a failed analysis, leave
ids [1, 2], counter 2, no duplicates, and the per-call append fact. -/
theorem claim_C6_witness :
    (runIngestions [some ⟨none, none⟩, none, some ⟨none, none⟩]
        ⟨[], 0⟩).user_profiles_memory.map StoredProfile.id
        = List.range' 1 ((runIngestions [some ⟨none, none⟩, none, some ⟨none, none⟩]
            ⟨[], 0⟩).user_profiles_memory.length) ∧
    (runIngestions [some ⟨none, none⟩, none, some ⟨none, none⟩]
        ⟨[], 0⟩).user_profiles_memory.length
        = countSuccess [some ⟨none, none⟩, none, some ⟨none, none⟩] ∧
    (runIngestions [some ⟨none, none⟩, none, some ⟨none, none⟩]
        ⟨[], 0⟩).USER_ID_COUNTER
        = countSuccess [some ⟨none, none⟩, none, some ⟨none, none⟩] ∧
    ((runIngestions [some ⟨none, none⟩, none, some ⟨none, none⟩]
        ⟨[], 0⟩).user_profiles_memory.map StoredProfile.id).Nodup ∧
    ∀ (raw : RawProfile) (st : ServerState),
      (mero_ai (some raw) st).2.user_profiles_memory
          = st.user_profiles_memory ++ [⟨st.USER_ID_COUNTER + 1, raw⟩] ∧
      (mero_ai (some raw) st).2.USER_ID_COUNTER = st.USER_ID_COUNTER + 1 :=
  claim_C6 _

/-- C7: when the analyzer returns no result, the tool returns exactly the
fixed apology string of line 70 and the whole state, store and counter alike,
is returned unchanged. -/
theorem claim_C7 (st : ServerState) :
    mero_ai none st = (Except.ok apology_message, st) := rfl

/-- C7 witness: the apology path at the fresh process state. -/
theorem claim_C7_witness :
    mero_ai none ⟨[], 0⟩ = (Except.ok apology_message, (⟨[], 0⟩ : ServerState)) :=
  claim_C7 _

/-- C8: the scan of an empty candidate list yields no match, and the first
ever ingestion into the empty store takes the first-user message path: the
reply is built from no match and the sentinel score, and the store afterwards
holds exactly the one new profile. -/
theorem claim_C8 :
    (∀ target : List ℝ, findBestMatch target [] = (none, -1)) ∧
    ∀ (raw : RawProfile) (il : List Val) (s : String),
      raw.interests = some il → joinStrs il = Except.ok s →
      mero_ai (some raw) ⟨[], 0⟩ =
        (Except.ok (response_message s none (-1)), ⟨[⟨1, raw⟩], 1⟩) := by
  constructor
  · intro target
    rfl
  · intro raw il s hil hjoin
    have hun : mero_ai (some raw) ⟨[], 0⟩ =
        ((expectKey raw.interests).bind fun il' =>
          (joinStrs il').bind fun interests_output =>
          Except.ok (response_message interests_output none (-1)),
          (⟨[⟨1, raw⟩], 1⟩ : ServerState)) := rfl
    rw [hun, hil]
    simp only [expectKey, Except.bind]
    rw [hjoin]

/-- C8 witness: the first ingestion of a concrete well-formed profile into the
fresh state returns the first-user reply and a one-profile store. -/
theorem claim_C8_witness :
    mero_ai (some ⟨some [Val.num 1], some [Val.str "reading"]⟩) ⟨[], 0⟩ =
      (Except.ok (response_message "reading" none (-1)),
        ⟨[⟨1, ⟨some [Val.num 1], some [Val.str "reading"]⟩⟩], 1⟩) :=
  claim_C8.2 _ _ _ rfl rfl

end MeroAI
